import Mathlib

/-!
Verification of the settlement engine and geo discovery of the foodtruck
marketplace (apps `marketplace`, `orders`, `core`).

Numeric model.  The cart aggregator (`get_cart_amounts`) computes with
Python `Decimal` values (`DecimalField` columns), which is exact decimal
arithmetic: those values are embedded directly as rationals (`ℚ`).  The
ledger decode (`order_total_by_vendor`) is different: it parses the
persisted decimal strings with `float(...)` and accumulates with binary64
float `+`.  That is embedded faithfully by `fl`, the binary64
round-to-nearest-ties-to-even rounding on `ℚ` (normal range): Python's
`float(s)` on a decimal string is `fl` of the string's exact value, and
each float addition rounds the exact sum, `fl (a + b)`.  Decimal-string
serialization itself (`str` of a `Decimal`) is value-faithful, so strings
are embedded as their exact values; floats enter only where the source
calls `float`.
-/

set_option synthInstance.maxSize 512

namespace Foodtruck

/-- Round a rational to the nearest integer, ties to even.  This is the
rounding used by Python's built-in `round` on `Decimal` values (the default
decimal context rounding, `ROUND_HALF_EVEN`). -/
def roundHalfEven (q : ℚ) : ℤ :=
  let f : ℤ := ⌊q⌋
  let r : ℚ := q - f
  if r < 1/2 then f
  else if 1/2 < r then f + 1
  else if f % 2 = 0 then f else f + 1

/-- Python `round(x, 2)` on decimals: half-even rounding to 2 decimal places. -/
def round2 (q : ℚ) : ℚ := (roundHalfEven (q * 100) : ℚ) / 100

/-- Python `round(x, 1)` on decimals: half-even rounding to 1 decimal place. -/
def round1 (q : ℚ) : ℚ := (roundHalfEven (q * 10) : ℚ) / 10

/-- `marketplace.models.Tax`: a tax rule row (type, percentage, active flag). -/
structure Tax where
  tax_type : String
  tax_percentage : ℚ
  is_active : Bool
  deriving Repr, DecidableEq

/-- `menu.models.FoodItem`, restricted to the fields the settlement engine
reads (id, price, owning vendor). -/
structure FoodItem where
  id : ℕ
  price : ℚ
  vendor_id : ℕ
  deriving Repr, DecidableEq

/-- `marketplace.models.Cart`: one cart line (food item, quantity). -/
structure CartItem where
  fooditem : FoodItem
  quantity : ℕ
  deriving Repr, DecidableEq

/-- A tax breakdown as built by the source: a Python dict keyed by tax type,
each value the one-entry dict `{str(tax_percentage): tax_amount}`.  Embedded
as an insertion-ordered association list of (type, percentage, amount). -/
abbrev TaxDict := List (String × ℚ × ℚ)

/-- Python `d.update({k: v})` on an insertion-ordered dict: replace the value
in place when the key is present (a Python dict holds each key at most once),
otherwise append the new entry. -/
def dictUpdate : TaxDict → String → ℚ → ℚ → TaxDict
  | [], k, p, a => [(k, p, a)]
  | e :: d, k, p, a =>
      if e.1 = k then (e.1, p, a) :: d else e :: dictUpdate d k p a

/-- Python `d1.update(d2)`: sequential per-key update. -/
def dictUpdateAll (d : TaxDict) (val : TaxDict) : TaxDict :=
  val.foldl (fun acc e => dictUpdate acc e.1 e.2.1 e.2.2) d

/-- `sum(x for key in tax_dict.values() for x in key.values())`: the sum of
all amounts appearing in a breakdown. -/
def taxSum (d : TaxDict) : ℚ :=
  d.foldl (fun s e => s + e.2.2) 0

/-- Binary64 (IEEE-754 double) rounding on exact rationals: round to the
nearest value with a 53-bit significand, ties to even.  `Int.log 2 |q| - 52`
is the exponent placing the significand in `[2^52, 2^53)`.  Overflow and
subnormals are not modelled (money magnitudes are far inside the normal
range); `fl 0 = 0`.  Python's `float(s)` on a decimal string equals `fl` of
the string's exact value, and a float addition of exact values `a`, `b`
returns `fl (a + b)`. -/
def fl (q : ℚ) : ℚ :=
  if q = 0 then 0
  else ((roundHalfEven (q / 2 ^ (Int.log 2 |q| - 52)) : ℤ) : ℚ)
    * 2 ^ (Int.log 2 |q| - 52)

/-- The float accumulation `for i in val: for j in val[i]: tax += float(val[i][j])`
of `orders.utils.order_total_by_vendor`, starting from the running value `t`:
each amount is float-parsed (`fl`) and float-added (`fl` of the sum). -/
def taxSumFloat (t : ℚ) (d : TaxDict) : ℚ :=
  d.foldl (fun s e => fl (s + fl e.2.2)) t

/-- Python dict lookup `d[k]` on a breakdown, as an option. -/
def taxLookup (d : TaxDict) (k : String) : Option (ℚ × ℚ) :=
  (d.find? (fun e => e.1 = k)).map (fun e => e.2)

/-- The tax-rule loop of `get_cart_amounts`: starting from the empty dict,
for each rule add (or overwrite) the entry
`{tax_type: {str(tax_percentage): round(tax_percentage * subtotal / 100, 2)}}`. -/
def taxDictOf (rules : List Tax) (subtotal : ℚ) : TaxDict :=
  rules.foldl
    (fun d t => dictUpdate d t.tax_type t.tax_percentage
      (round2 (t.tax_percentage * subtotal / 100))) []

/-- The dict returned by `marketplace.context_processors.get_cart_amounts`. -/
structure CartAmounts where
  subtotal : ℚ
  tax : ℚ
  grand_total : ℚ
  tax_dict : TaxDict
  deriving Repr, DecidableEq

/-- `marketplace.context_processors.get_cart_amounts`, the cart aggregator:
subtotal over the user's cart lines at live catalog prices, then one
breakdown entry per active tax rule with `round(percentage * subtotal / 100, 2)`,
`tax` the sum of the breakdown amounts, `grand_total = subtotal + tax`. -/
def get_cart_amounts (cart_items : List CartItem) (taxes : List Tax) : CartAmounts :=
  let subtotal : ℚ :=
    cart_items.foldl (fun s item => s + item.fooditem.price * item.quantity) 0
  let tax_dict : TaxDict := taxDictOf (taxes.filter (fun t => t.is_active)) subtotal
  let tax := taxSum tax_dict
  { subtotal := subtotal
    tax := tax
    grand_total := subtotal + tax
    tax_dict := tax_dict }

/-- The persisted `Order.total_data` ledger, after JSON parsing: a dict
keyed by vendor id (a stringified integer, embedded as `ℕ` since `str` is
injective on ids), each value a dict from a stringified subtotal to that
sub-amount's serialized tax breakdown.  Stringified decimals are embedded
as their exact values. -/
abbrev TotalData := List (ℕ × List (ℚ × TaxDict))

/-- `total_data.get(str(vendor_id))`: dictionary lookup by vendor id. -/
def lookupTD (td : TotalData) (vid : ℕ) : Option (List (ℚ × TaxDict)) :=
  (td.find? (fun p => p.1 = vid)).map (fun p => p.2)

/-- The dict returned by `orders.utils.order_total_by_vendor` (keys
`subtotal`, `tax_dict`, `grand_total`). -/
structure VendorContext where
  subtotal : ℚ
  tax_dict : TaxDict
  grand_total : ℚ
  deriving Repr, DecidableEq

/-- The loop body of `orders.utils.order_total_by_vendor` over one vendor's
ledger entry, with the source's float semantics: `subtotal` float-adds the
`float(key)`-parsed keys, `tax_dict` is the running union of the per-key
breakdowns (the parsed strings, no floats), `tax` float-accumulates every
`float(...)`-parsed amount of every per-key breakdown, and
`grand_total = float(subtotal) + float(tax)`, one more float addition. -/
def decodeVendorData (data : List (ℚ × TaxDict)) : VendorContext :=
  let acc := data.foldl
    (fun (acc : ℚ × ℚ × TaxDict) kv =>
      (fl (acc.1 + fl kv.1), taxSumFloat acc.2.1 kv.2, dictUpdateAll acc.2.2 kv.2))
    (0, 0, [])
  { subtotal := acc.1
    tax_dict := acc.2.2
    grand_total := fl (acc.1 + acc.2.1) }

/-- Failure modes of the per-vendor totals query.  The code itself only ever
raises Python's `AttributeError` (iterating `.items()` on the `None` that
`dict.get` returns for a missing vendor); `vendorNotInOrder` is the
dedicated error the specification's taxonomy names, included so the two
behaviours can be compared — no code path produces it. -/
inductive PyErr where
  | attributeError
  | vendorNotInOrder
  deriving Repr, DecidableEq

/-- `orders.models.Order`, restricted to the persisted fields the settlement
engine touches. -/
structure Order where
  order_number : String
  total : ℚ
  total_tax : ℚ
  total_data : TotalData
  status : String
  is_ordered : Bool
  deriving Repr, DecidableEq

/-- `orders.utils.order_total_by_vendor`: look the vendor up in the parsed
`total_data`; a missing vendor id makes the subsequent `data.items()` raise
`AttributeError`, otherwise decode that vendor's entry. -/
def order_total_by_vendor (order : Order) (vendor_id : ℕ) : Except PyErr VendorContext :=
  match lookupTD order.total_data vendor_id with
  | none => .error .attributeError
  | some data => .ok (decodeVendorData data)

/-- The ledger codec's decode direction: decode every vendor's slice of the
persisted document (each slice exactly as `order_total_by_vendor` computes it). -/
def decodeLedger (td : TotalData) : List (ℕ × VendorContext) :=
  td.map (fun p => (p.1, decodeVendorData p.2))

/-- Modelled from the spec: the encode direction of the Vendor Ledger Codec
(the `place_order` view that writes `Order.total_data` is not part of the
sources here).  Per the spec's §4.2 persisted shape, each vendor id maps to
a one-key dict from the vendor's stringified subtotal to that vendor's
serialized tax breakdown. -/
def encodeLedger (ledger : List (ℕ × VendorContext)) : TotalData :=
  ledger.map (fun p => (p.1, [(p.2.subtotal, p.2.tax_dict)]))

/-- A valid ledger in the spec's sense: per vendor, the breakdown's tax
types are distinct (tax rule types are unique) and `grand_total` is the
subtotal plus the sum of the breakdown amounts. -/
def validLedger (ledger : List (ℕ × VendorContext)) : Prop :=
  ∀ p ∈ ledger,
    (p.2.tax_dict.map (fun e => e.1)).Nodup ∧
    p.2.grand_total = p.2.subtotal + taxSum p.2.tax_dict

instance (ledger : List (ℕ × VendorContext)) : Decidable (validLedger ledger) := by
  unfold validLedger; infer_instance

/-! ### Views: checkout (marketplace/views.py) and home (core/views.py) -/

/-- The responses the `checkout` view can produce, plus the spec taxonomy's
`EmptyCart` error for comparison — no code path produces it. -/
inductive CheckoutResponse where
  | redirect (target : String)
  | render (template : String)
  | errorEmptyCart
  deriving Repr, DecidableEq

/-- `marketplace.views.checkout`: with an empty cart it redirects to the
marketplace page, otherwise it renders the checkout form.  The order store
is threaded through explicitly to record that the view never writes it. -/
def checkout (orders : List Order) (cart_items : List CartItem) :
    CheckoutResponse × List Order :=
  if cart_items.length ≤ 0 then (.redirect "marketplace", orders)
  else (.render "marketplace/checkout.html", orders)

/-- A geographic point `(longitude, latitude)`. -/
abbrev Point := ℚ × ℚ

/-- `vendor.models.Vendor`, restricted to the fields discovery reads:
id, approval flag, the owning user's active flag, and the profile location
(nullable). -/
structure Vendor where
  id : ℕ
  vendor_name : String
  is_approved : Bool
  user_is_active : Bool
  location : Option Point
  deriving Repr, DecidableEq

/-- The sort key the database computes for `order_by("distance")`: the
distance from the vendor's profile location to the origin point.  `dist` is
the spatial backend's distance function, an external collaborator. -/
def distKey (dist : Point → Point → ℚ) (pnt : Point) (v : Vendor) : ℚ :=
  match v.location with
  | some l => dist l pnt
  | none => 0

/-- Insert into a list sorted ascending by `key`, before the first element
with a key `≥` the new one (the tie behaviour of a stable sort). -/
def insertByKey (key : Vendor → ℚ) (a : Vendor) : List Vendor → List Vendor
  | [] => [a]
  | b :: l => if key a ≤ key b then a :: b :: l else b :: insertByKey key a l

/-- Stable ascending sort by a rational key: the model of `order_by` on an
annotated queryset.  Rows with equal keys keep their underlying order; SQL
leaves that order unspecified, and in particular does not promise vendor-id
order. -/
def sortByKey (key : Vendor → ℚ) : List Vendor → List Vendor
  | [] => []
  | a :: l => insertByKey key a (sortByKey key l)

/-- `core.views.home`: with a current location, every vendor whose profile
location is within 1000 km is returned ordered by distance and annotated
with `round(distance.km, 1)` (no approval or activity filter); with no
location, the first 8 approved vendors of active users, unannotated. -/
def home (dist : Point → Point → ℚ) (vendors : List Vendor)
    (origin : Option Point) : List (Vendor × Option ℚ) :=
  match origin with
  | some pnt =>
      let within := vendors.filter (fun v =>
        match v.location with
        | some l => dist l pnt ≤ 1000
        | none => false)
      (sortByKey (distKey dist pnt) within).map (fun v =>
        (v, match v.location with
            | some l => some (round1 (dist l pnt))
            | none => none))
  | none =>
      ((vendors.filter (fun v => v.is_approved && v.user_is_active)).take 8).map
        (fun v => (v, none))

/-! ### Helper lemmas: breakdown dictionaries -/

theorem taxSum_eq_sum (d : TaxDict) : taxSum d = (d.map (fun e => e.2.2)).sum := by
  suffices h : ∀ s : ℚ, d.foldl (fun s e => s + e.2.2) s = s + (d.map (fun e => e.2.2)).sum by
    simpa [taxSum] using h 0
  induction d with
  | nil => simp
  | cons e d ih => intro s; rw [List.foldl_cons, ih]; simp; ring

theorem dictUpdate_of_not_mem (d : TaxDict) (k : String) (p a : ℚ)
    (h : ∀ e ∈ d, e.1 ≠ k) : dictUpdate d k p a = d ++ [(k, p, a)] := by
  induction d with
  | nil => rfl
  | cons e d ih =>
      have hk : e.1 ≠ k := h e (List.mem_cons_self e d)
      simp only [dictUpdate, if_neg hk, List.cons_append, List.cons.injEq, true_and]
      exact ih (fun e' he' => h e' (List.mem_cons_of_mem e he'))

theorem taxLookup_dictUpdate_self (d : TaxDict) (k : String) (p a : ℚ) :
    taxLookup (dictUpdate d k p a) k = some (p, a) := by
  induction d with
  | nil => simp [dictUpdate, taxLookup, List.find?]
  | cons e d ih =>
      by_cases hk : e.1 = k
      · simp [dictUpdate, if_pos hk, taxLookup, List.find?, hk]
      · simp only [dictUpdate, if_neg hk]
        simpa [taxLookup, List.find?, hk] using ih

theorem taxLookup_dictUpdate_ne (d : TaxDict) (k k' : String) (p a : ℚ)
    (h : k' ≠ k) : taxLookup (dictUpdate d k p a) k' = taxLookup d k' := by
  have hkk : ¬ (k = k') := fun hh => h hh.symm
  induction d with
  | nil => simp [dictUpdate, taxLookup, List.find?, hkk]
  | cons e d ih =>
      by_cases hk : e.1 = k
      · have hk' : ¬ (e.1 = k') := fun hh => h (hh.symm.trans hk)
        simp [dictUpdate, if_pos hk, taxLookup, List.find?, hk', hk, hkk]
      · have hd : dictUpdate (e :: d) k p a = e :: dictUpdate d k p a := by
          simp [dictUpdate, hk]
        rw [hd]
        by_cases hk2 : e.1 = k'
        · simp [taxLookup, List.find?, hk2]
        · simpa [taxLookup, List.find?, hk2] using ih

theorem dictUpdateAll_append (val : TaxDict) :
    ∀ d : TaxDict, (val.map (fun e => e.1)).Nodup →
      (∀ e ∈ val, ∀ e' ∈ d, e'.1 ≠ e.1) →
      dictUpdateAll d val = d ++ val := by
  induction val with
  | nil => intro d _ _; simp [dictUpdateAll]
  | cons e val ih =>
      intro d hnd hdisj
      rw [List.map_cons, List.nodup_cons] at hnd
      have hstep : dictUpdate d e.1 e.2.1 e.2.2 = d ++ [e] := by
        have := dictUpdate_of_not_mem d e.1 e.2.1 e.2.2
          (fun e' he' => hdisj e (List.mem_cons_self e val) e' he')
        simpa using this
      have hrest : dictUpdateAll (d ++ [e]) val = (d ++ [e]) ++ val := by
        refine ih (d ++ [e]) hnd.2 ?_
        intro f hf e' he'
        rcases List.mem_append.mp he' with h1 | h1
        · exact hdisj f (List.mem_cons_of_mem e hf) e' h1
        · have he : e' = e := by simpa using h1
          subst he
          intro hc
          exact hnd.1 (hc ▸ List.mem_map_of_mem (fun x => x.1) hf)
      calc dictUpdateAll d (e :: val)
          = dictUpdateAll (dictUpdate d e.1 e.2.1 e.2.2) val := by
            simp [dictUpdateAll]
        _ = (d ++ [e]) ++ val := by rw [hstep]; exact hrest
        _ = d ++ e :: val := by simp

theorem dictUpdateAll_nil (val : TaxDict) (h : (val.map (fun e => e.1)).Nodup) :
    dictUpdateAll [] val = val := by
  simpa using dictUpdateAll_append val [] h (by simp)

/-! ### Helper lemmas: binary64 rounding -/

theorem roundHalfEven_intCast (n : ℤ) : roundHalfEven ((n : ℤ) : ℚ) = n := by
  unfold roundHalfEven
  norm_num [Int.floor_intCast]

theorem fl_dyadic (q : ℚ) : ∃ m e : ℤ, fl q = (m : ℚ) * 2 ^ e := by
  unfold fl
  by_cases h : q = 0
  · rw [if_pos h]
    exact ⟨0, 0, by norm_num⟩
  · rw [if_neg h]
    exact ⟨roundHalfEven (q / 2 ^ (Int.log 2 |q| - 52)), Int.log 2 |q| - 52, rfl⟩

theorem fl_eq_self (m e : ℤ) (hm0 : m ≠ 0) (hm : |m| < 2 ^ 53) :
    fl ((m : ℚ) * 2 ^ e) = (m : ℚ) * 2 ^ e := by
  have hq0 : (m : ℚ) * 2 ^ e ≠ 0 :=
    mul_ne_zero (Int.cast_ne_zero.mpr hm0) (zpow_ne_zero e (by norm_num))
  have habs : |(m : ℚ) * 2 ^ e| = |(m : ℚ)| * 2 ^ e := by
    rw [abs_mul, abs_of_pos (zpow_pos (by norm_num : (0:ℚ) < 2) e)]
  have hmq : |(m : ℚ)| < 2 ^ (53 : ℕ) := by
    have : ((|m| : ℤ) : ℚ) < ((2 ^ 53 : ℤ) : ℚ) := by exact_mod_cast hm
    push_cast at this
    simpa using this
  have hlt : |(m : ℚ) * 2 ^ e| < (2 : ℚ) ^ (e + 53) := by
    rw [habs, zpow_add₀ (by norm_num : (2:ℚ) ≠ 0) e 53]
    have h2e : (0:ℚ) < 2 ^ e := zpow_pos (by norm_num) e
    calc |(m : ℚ)| * 2 ^ e < 2 ^ (53 : ℕ) * 2 ^ e := by
          exact mul_lt_mul_of_pos_right hmq h2e
      _ = 2 ^ e * 2 ^ (53 : ℤ) := by
          rw [mul_comm]
          norm_num
  have hlog : Int.log 2 |(m : ℚ) * 2 ^ e| < e + 53 := by
    rw [← Int.lt_zpow_iff_log_lt (by norm_num : 1 < 2) (abs_pos.mpr hq0)]
    have hcast : ((2 : ℕ) : ℚ) = (2 : ℚ) := by norm_num
    rw [hcast]
    exact hlt
  set E : ℤ := Int.log 2 |(m : ℚ) * 2 ^ e| - 52 with hEdef
  have hEe : E ≤ e := by omega
  obtain ⟨k, hk⟩ : ∃ k : ℕ, e - E = (k : ℤ) := ⟨(e - E).toNat, by omega⟩
  have hke : (k : ℤ) + E = e := by omega
  have hq2 : (m : ℚ) * 2 ^ e / 2 ^ E = ((m * 2 ^ k : ℤ) : ℚ) := by
    rw [div_eq_iff (zpow_ne_zero E (by norm_num : (2:ℚ) ≠ 0))]
    push_cast
    rw [mul_assoc, ← zpow_natCast (2 : ℚ) k, ← zpow_add₀ (by norm_num : (2:ℚ) ≠ 0),
      hke]
  have hfl : fl ((m : ℚ) * 2 ^ e)
      = ((roundHalfEven ((m : ℚ) * 2 ^ e / 2 ^ E) : ℤ) : ℚ) * 2 ^ E := by
    unfold fl
    rw [if_neg hq0]
  rw [hfl, hq2, roundHalfEven_intCast]
  push_cast
  rw [mul_assoc, ← zpow_natCast (2 : ℚ) k, ← zpow_add₀ (by norm_num : (2:ℚ) ≠ 0),
    hke]

theorem fl_intCast (n : ℤ) (h0 : n ≠ 0) (h53 : |n| < 2 ^ 53) :
    fl ((n : ℤ) : ℚ) = ((n : ℤ) : ℚ) := by
  have := fl_eq_self n 0 h0 h53
  simpa using this

theorem fl_zero : fl 0 = 0 := by
  unfold fl
  rw [if_pos rfl]

/-- `101 / 10` (the decimal `10.10`) is not a dyadic rational, hence not
exactly representable as a binary64 float. -/
theorem not_dyadic_101_over_10 (m e : ℤ) : (m : ℚ) * 2 ^ e ≠ 101 / 10 := by
  intro h
  rcases le_or_lt 0 e with he | he
  · obtain ⟨k, hk⟩ : ∃ k : ℕ, e = (k : ℤ) := ⟨e.toNat, by omega⟩
    subst hk
    have h10 : ((10 * m * 2 ^ k : ℤ) : ℚ) = ((101 : ℤ) : ℚ) := by
      push_cast
      rw [zpow_natCast] at h
      field_simp at h
      linarith [h]
    have h2 : (10 * m * 2 ^ k : ℤ) = 101 := by exact_mod_cast h10
    have hdvd : (2 : ℤ) ∣ 10 * m * 2 ^ k := ⟨5 * m * 2 ^ k, by ring⟩
    rw [h2] at hdvd
    omega
  · obtain ⟨k, hk⟩ : ∃ k : ℕ, e = -(k : ℤ) := ⟨(-e).toNat, by omega⟩
    subst hk
    have hzp : (2 : ℚ) ^ (-(k : ℤ)) = ((2 : ℚ) ^ k)⁻¹ := by
      rw [zpow_neg, zpow_natCast]
    rw [hzp] at h
    have h10 : ((10 * m : ℤ) : ℚ) = ((101 * 2 ^ k : ℤ) : ℚ) := by
      push_cast
      have h2k : (2 : ℚ) ^ k ≠ 0 := pow_ne_zero k (by norm_num)
      field_simp at h
      linarith [h]
    have h2 : (10 * m : ℤ) = 101 * 2 ^ k := by exact_mod_cast h10
    have h5 : (5 : ℤ) ∣ 101 * 2 ^ k := ⟨2 * m, by omega⟩
    have hp5 : Prime (5 : ℤ) := by norm_num
    rcases hp5.dvd_mul.mp h5 with h51 | h52
    · omega
    · have : (5 : ℤ) ∣ 2 := hp5.dvd_of_dvd_pow h52
      omega

/-! ### Helper lemmas: the cart aggregator's tax dictionary -/

theorem round2_zero : round2 0 = 0 := by
  norm_num [round2, roundHalfEven]

theorem mem_dictUpdate (d : TaxDict) (k : String) (p a : ℚ) :
    ∀ e ∈ dictUpdate d k p a, e ∈ d ∨ e = (k, p, a) := by
  induction d with
  | nil => intro e he; right; simpa [dictUpdate] using he
  | cons f d ih =>
      intro e he
      by_cases hk : f.1 = k
      · rw [dictUpdate, if_pos hk] at he
        rcases List.mem_cons.mp he with h1 | h1
        · right; rw [h1, hk]
        · left; exact List.mem_cons_of_mem f h1
      · rw [dictUpdate, if_neg hk] at he
        rcases List.mem_cons.mp he with h1 | h1
        · left; exact h1 ▸ List.mem_cons_self f d
        · rcases ih e h1 with h2 | h2
          · left; exact List.mem_cons_of_mem f h2
          · right; exact h2

theorem taxDict_fold_mem (rules : List Tax) (s : ℚ) :
    ∀ (acc : TaxDict) (e : String × ℚ × ℚ),
      e ∈ rules.foldl
        (fun d t => dictUpdate d t.tax_type t.tax_percentage
          (round2 (t.tax_percentage * s / 100))) acc →
      e ∈ acc ∨ ∃ t ∈ rules,
        e = (t.tax_type, t.tax_percentage, round2 (t.tax_percentage * s / 100)) := by
  induction rules with
  | nil => intro acc e he; left; simpa using he
  | cons t rest ih =>
      intro acc e he
      rw [List.foldl_cons] at he
      rcases ih _ e he with h1 | h1
      · rcases mem_dictUpdate _ _ _ _ e h1 with h2 | h2
        · left; exact h2
        · right; exact ⟨t, List.mem_cons_self t rest, h2⟩
      · obtain ⟨t', ht', he'⟩ := h1
        right; exact ⟨t', List.mem_cons_of_mem t ht', he'⟩

theorem mem_taxDictOf (rules : List Tax) (s : ℚ) :
    ∀ e ∈ taxDictOf rules s, ∃ t ∈ rules,
      e = (t.tax_type, t.tax_percentage, round2 (t.tax_percentage * s / 100)) := by
  intro e he
  rcases taxDict_fold_mem rules s [] e he with h | h
  · simp at h
  · exact h

theorem dictUpdate_ne_nil (d : TaxDict) (k : String) (p a : ℚ) :
    dictUpdate d k p a ≠ [] := by
  cases d with
  | nil => simp [dictUpdate]
  | cons f d =>
      rw [dictUpdate]
      by_cases hk : f.1 = k
      · rw [if_pos hk]; simp
      · rw [if_neg hk]; simp

theorem taxDictOf_eq_nil_iff (rules : List Tax) (s : ℚ) :
    taxDictOf rules s = [] ↔ rules = [] := by
  constructor
  · intro h
    cases rules with
    | nil => rfl
    | cons t rest =>
        exfalso
        have hne : ∀ (rest : List Tax) (acc : TaxDict), acc ≠ [] →
            rest.foldl
              (fun d t => dictUpdate d t.tax_type t.tax_percentage
                (round2 (t.tax_percentage * s / 100))) acc ≠ [] := by
          intro rest
          induction rest with
          | nil => intro acc ha; simpa using ha
          | cons u rest ih =>
              intro acc _
              rw [List.foldl_cons]
              exact ih _ (dictUpdate_ne_nil _ _ _ _)
        have : taxDictOf (t :: rest) s ≠ [] := by
          unfold taxDictOf
          rw [List.foldl_cons]
          exact hne rest _ (dictUpdate_ne_nil _ _ _ _)
        exact this h
  · intro h; rw [h]; rfl

theorem taxLookup_fold_no_key (rules : List Tax) (k : String) (s : ℚ)
    (h : ∀ t ∈ rules, t.tax_type ≠ k) :
    ∀ acc : TaxDict,
      taxLookup
        (rules.foldl
          (fun d t => dictUpdate d t.tax_type t.tax_percentage
            (round2 (t.tax_percentage * s / 100))) acc) k
      = taxLookup acc k := by
  induction rules with
  | nil => intro acc; rfl
  | cons t rest ih =>
      intro acc
      rw [List.foldl_cons]
      rw [ih (fun u hu => h u (List.mem_cons_of_mem t hu)) _]
      exact taxLookup_dictUpdate_ne _ _ _ _ _
        (fun hk => h t (List.mem_cons_self t rest) hk.symm)

theorem taxLookup_taxDictOf_last (pre post : List Tax) (t : Tax) (s : ℚ)
    (h : ∀ r ∈ post, r.tax_type ≠ t.tax_type) :
    taxLookup (taxDictOf (pre ++ t :: post) s) t.tax_type
      = some (t.tax_percentage, round2 (t.tax_percentage * s / 100)) := by
  unfold taxDictOf
  rw [List.foldl_append, List.foldl_cons]
  rw [taxLookup_fold_no_key post t.tax_type s h _]
  exact taxLookup_dictUpdate_self _ _ _ _

/-! ### Helper lemmas: distance sorting -/

theorem mem_insertByKey (key : Vendor → ℚ) (a x : Vendor) :
    ∀ l : List Vendor, x ∈ insertByKey key a l ↔ x = a ∨ x ∈ l := by
  intro l
  induction l with
  | nil => simp [insertByKey]
  | cons b l ih =>
      rw [insertByKey]
      by_cases h : key a ≤ key b
      · rw [if_pos h]
        simp [List.mem_cons]
      · rw [if_neg h]
        simp only [List.mem_cons, ih]
        tauto

theorem mem_sortByKey (key : Vendor → ℚ) (x : Vendor) :
    ∀ l : List Vendor, x ∈ sortByKey key l ↔ x ∈ l := by
  intro l
  induction l with
  | nil => simp [sortByKey]
  | cons a l ih =>
      rw [sortByKey, mem_insertByKey]
      simp [List.mem_cons, ih]

theorem pairwise_insertByKey (key : Vendor → ℚ) (a : Vendor) :
    ∀ l : List Vendor, l.Pairwise (fun x y => key x ≤ key y) →
      (insertByKey key a l).Pairwise (fun x y => key x ≤ key y) := by
  intro l
  induction l with
  | nil => intro _; simp [insertByKey]
  | cons b l ih =>
      intro hp
      rw [List.pairwise_cons] at hp
      rw [insertByKey]
      by_cases h : key a ≤ key b
      · rw [if_pos h]
        refine List.pairwise_cons.mpr ⟨?_, List.pairwise_cons.mpr hp⟩
        intro x hx
        rcases List.mem_cons.mp hx with h1 | h1
        · exact h1 ▸ h
        · exact le_trans h (hp.1 x h1)
      · rw [if_neg h]
        refine List.pairwise_cons.mpr ⟨?_, ih hp.2⟩
        intro x hx
        rcases (mem_insertByKey key a x l).mp hx with h1 | h1
        · exact h1 ▸ le_of_not_le h
        · exact hp.1 x h1

theorem pairwise_sortByKey (key : Vendor → ℚ) :
    ∀ l : List Vendor, (sortByKey key l).Pairwise (fun x y => key x ≤ key y) := by
  intro l
  induction l with
  | nil => simp [sortByKey]
  | cons a l ih => exact pairwise_insertByKey key a _ ih

theorem map_fst_pair {α β : Type} (l : List α) (f : α → β) :
    (l.map (fun x => (x, f x))).map Prod.fst = l := by
  induction l with
  | nil => rfl
  | cons a l ih => simp [ih]

theorem map_fst_home (dist : Point → Point → ℚ) (vendors : List Vendor)
    (pnt : Point) :
    (home dist vendors (some pnt)).map Prod.fst
      = sortByKey (distKey dist pnt)
          (vendors.filter (fun v =>
            match v.location with
            | some l => dist l pnt ≤ 1000
            | none => false)) := by
  rw [home]
  exact map_fst_pair _ _

theorem mem_home_within (dist : Point → Point → ℚ) (vendors : List Vendor)
    (pnt : Point) (v : Vendor) :
    v ∈ (home dist vendors (some pnt)).map Prod.fst ↔
      v ∈ vendors ∧ ∃ l, v.location = some l ∧ dist l pnt ≤ 1000 := by
  rw [map_fst_home, mem_sortByKey, List.mem_filter]
  constructor
  · rintro ⟨hv, hcond⟩
    refine ⟨hv, ?_⟩
    cases hl : v.location with
    | none => rw [hl] at hcond; simp at hcond
    | some l =>
        rw [hl] at hcond
        exact ⟨l, rfl, by simpa using hcond⟩
  · rintro ⟨hv, l, hl, hle⟩
    exact ⟨hv, by rw [hl]; simpa using hle⟩

/-! ### Claim theorems -/

theorem decodeVendorData_single (s : ℚ) (d : TaxDict) :
    decodeVendorData [(s, d)] =
      { subtotal := fl (0 + fl s)
        tax_dict := dictUpdateAll [] d
        grand_total := fl (fl (0 + fl s) + taxSumFloat 0 d) } := rfl

theorem fl_fifty : fl (50 : ℚ) = 50 := by
  exact_mod_cast fl_intCast 50 (by norm_num) (by norm_num)

theorem fl_thirty : fl (30 : ℚ) = 30 := by
  exact_mod_cast fl_intCast 30 (by norm_num) (by norm_num)

theorem fl_fiftyeight : fl (58 : ℚ) = 58 := by
  exact_mod_cast fl_intCast 58 (by norm_num) (by norm_num)

theorem fl_eight : fl (8 : ℚ) = 8 := by
  exact_mod_cast fl_intCast 8 (by norm_num) (by norm_num)

theorem fl_nine_halves : fl ((9 : ℚ) / 2) = 9 / 2 := by
  have h := fl_eq_self 9 (-1) (by norm_num) (by norm_num)
  have e1 : ((9 : ℤ) : ℚ) * 2 ^ (-1 : ℤ) = 9 / 2 := by
    rw [zpow_neg, zpow_one]
    norm_num
  rw [e1] at h
  exact h

theorem fl_seven_halves : fl ((7 : ℚ) / 2) = 7 / 2 := by
  have h := fl_eq_self 7 (-1) (by norm_num) (by norm_num)
  have e1 : ((7 : ℤ) : ℚ) * 2 ^ (-1 : ℤ) = 7 / 2 := by
    rw [zpow_neg, zpow_one]
    norm_num
  rw [e1] at h
  exact h

theorem taxSumFloat_sample :
    taxSumFloat 0 [("CGST", 9, 9/2), ("SGST", 7, 7/2)] = 8 := by
  unfold taxSumFloat
  simp only [List.foldl_cons, List.foldl_nil]
  rw [fl_nine_halves, zero_add, fl_nine_halves, fl_seven_halves,
    show (9 : ℚ) / 2 + 7 / 2 = 8 by norm_num, fl_eight]

theorem taxSum_sample : taxSum [("CGST", 9, 9/2), ("SGST", 7, 7/2)] = 8 := by
  unfold taxSum
  simp only [List.foldl_cons, List.foldl_nil]
  norm_num

/-- C1 as stated is false: the decode parses the persisted decimal strings
with binary64 `float(...)`, so a valid ledger whose subtotal is the decimal
`10.10` — not representable as a double — does not round-trip exactly: the
decoded subtotal is a dyadic float approximation of `101/10`, never `101/10`
itself. -/
theorem C1_counterexample :
    validLedger [(1, ⟨101/10, [], 101/10⟩)]
    ∧ decodeLedger (encodeLedger [(1, ⟨101/10, [], 101/10⟩)])
      ≠ [(1, ⟨101/10, [], 101/10⟩)] := by
  constructor
  · unfold validLedger
    intro p hp
    simp only [List.mem_cons, List.not_mem_nil, or_false] at hp
    subst hp
    refine ⟨by decide, ?_⟩
    simp [taxSum]
  · intro heq
    rw [show decodeLedger (encodeLedger [(1, ⟨101/10, [], 101/10⟩)])
        = [(1, decodeVendorData [((101 : ℚ)/10, ([] : TaxDict))])] from rfl] at heq
    simp only [List.cons.injEq, and_true, Prod.mk.injEq, true_and] at heq
    have hsub : fl (0 + fl ((101 : ℚ)/10)) = 101/10 :=
      congrArg VendorContext.subtotal heq
    obtain ⟨m, e, hme⟩ := fl_dyadic (0 + fl ((101 : ℚ)/10))
    rw [hme] at hsub
    exact not_dyadic_101_over_10 m e hsub

/-- C1 amended: decoding the encoded form reproduces a valid ledger exactly
whenever each vendor's numbers survive binary64 float parsing and
accumulation exactly — the subtotal is a float fixed point, the
float-accumulated tax equals the exact sum of the breakdown amounts, and
the final addition is exact (for example, integer or dyadic money values);
the breakdown itself is reproduced without any float involvement.  For
general decimal values (such as subtotal `10.10`) the decoded totals are
float approximations and the strict round trip fails. -/
theorem C1_ledger_roundtrip (L : List (ℕ × VendorContext)) (h : validLedger L)
    (hfl : ∀ p ∈ L, fl p.2.subtotal = p.2.subtotal
      ∧ taxSumFloat 0 p.2.tax_dict = taxSum p.2.tax_dict
      ∧ fl (p.2.subtotal + taxSum p.2.tax_dict)
          = p.2.subtotal + taxSum p.2.tax_dict) :
    decodeLedger (encodeLedger L) = L := by
  induction L with
  | nil => rfl
  | cons p L ih =>
      obtain ⟨vid, s, d, g⟩ := p
      have hp := h (vid, ⟨s, d, g⟩) (List.mem_cons_self _ L)
      have hq := hfl (vid, ⟨s, d, g⟩) (List.mem_cons_self _ L)
      dsimp only at hp hq
      have hL : validLedger L := fun q hq' => h q (List.mem_cons_of_mem _ hq')
      show (vid, decodeVendorData [(s, d)]) :: decodeLedger (encodeLedger L)
          = (vid, ⟨s, d, g⟩) :: L
      rw [ih hL (fun q hq' => hfl q (List.mem_cons_of_mem _ hq')),
        decodeVendorData_single]
      have hs : fl (0 + fl s) = s := by rw [hq.1, zero_add, hq.1]
      rw [dictUpdateAll_nil d hp.1, hs, hq.2.1, hq.2.2, ← hp.2]

/-- Witness for C1's amended statement at a concrete two-vendor ledger with
dyadic money values: one vendor with two tax types, one with zero tax. -/
theorem C1_witness :
    validLedger [(1, ⟨50, [("CGST", 9, 9/2), ("SGST", 7, 7/2)], 58⟩),
                 (2, ⟨30, [], 30⟩)]
    ∧ (∀ p ∈ [(1, (⟨50, [("CGST", 9, 9/2), ("SGST", 7, 7/2)], 58⟩ : VendorContext)),
              ((2 : ℕ), (⟨30, [], 30⟩ : VendorContext))],
        fl p.2.subtotal = p.2.subtotal
        ∧ taxSumFloat 0 p.2.tax_dict = taxSum p.2.tax_dict
        ∧ fl (p.2.subtotal + taxSum p.2.tax_dict)
            = p.2.subtotal + taxSum p.2.tax_dict)
    ∧ decodeLedger (encodeLedger
        [(1, ⟨50, [("CGST", 9, 9/2), ("SGST", 7, 7/2)], 58⟩), (2, ⟨30, [], 30⟩)])
      = [(1, ⟨50, [("CGST", 9, 9/2), ("SGST", 7, 7/2)], 58⟩), (2, ⟨30, [], 30⟩)] := by
  have hv : validLedger [(1, ⟨50, [("CGST", 9, 9/2), ("SGST", 7, 7/2)], 58⟩),
      ((2 : ℕ), (⟨30, [], 30⟩ : VendorContext))] := by
    unfold validLedger
    intro p hp
    simp only [List.mem_cons, List.not_mem_nil, or_false] at hp
    rcases hp with h | h <;> subst h <;> refine ⟨by decide, ?_⟩ <;>
      simp [taxSum] <;> norm_num
  have hfa : ∀ p ∈ [(1, (⟨50, [("CGST", 9, 9/2), ("SGST", 7, 7/2)], 58⟩ : VendorContext)),
      ((2 : ℕ), (⟨30, [], 30⟩ : VendorContext))],
      fl p.2.subtotal = p.2.subtotal
      ∧ taxSumFloat 0 p.2.tax_dict = taxSum p.2.tax_dict
      ∧ fl (p.2.subtotal + taxSum p.2.tax_dict)
          = p.2.subtotal + taxSum p.2.tax_dict := by
    intro p hp
    simp only [List.mem_cons, List.not_mem_nil, or_false] at hp
    rcases hp with h | h <;> subst h <;> dsimp only
    · refine ⟨fl_fifty, taxSumFloat_sample.trans taxSum_sample.symm, ?_⟩
      rw [taxSum_sample, show (50 : ℚ) + 8 = 58 by norm_num, fl_fiftyeight]
    · refine ⟨fl_thirty, rfl, ?_⟩
      show fl ((30 : ℚ) + 0) = 30 + 0
      rw [add_zero, fl_thirty]
  exact ⟨hv, hfa, C1_ledger_roundtrip _ hv hfa⟩

/-- C2 as stated is false for the decoded side: the decode float-parses and
float-accumulates the breakdown amounts and float-adds the grand total, so
with a breakdown amount of the decimal `10.10` the decoded grand total is a
dyadic float value while subtotal + (exact sum of the breakdown amounts) is
`101/10`, which is not dyadic — the equation fails exactly. -/
theorem C2_counterexample :
    ((([((0 : ℚ), [("T", (0 : ℚ), (101 : ℚ)/10)])].map
        (fun kv => kv.2)).flatten).map (fun e => e.1)).Nodup
    ∧ (decodeVendorData [(0, [("T", 0, 101/10)])]).grand_total
      ≠ (decodeVendorData [(0, [("T", 0, 101/10)])]).subtotal
        + taxSum (decodeVendorData [(0, [("T", 0, 101/10)])]).tax_dict := by
  refine ⟨by decide, ?_⟩
  intro heq
  have hsub : (decodeVendorData [((0 : ℚ), [("T", (0 : ℚ), (101 : ℚ)/10)])]).subtotal
      = fl (0 + fl 0) := rfl
  have hsub0 : fl ((0 : ℚ) + fl 0) = 0 := by rw [fl_zero, add_zero, fl_zero]
  have hdict : (decodeVendorData [((0 : ℚ), [("T", (0 : ℚ), (101 : ℚ)/10)])]).tax_dict
      = [("T", 0, 101/10)] := rfl
  have htx : taxSum [("T", (0 : ℚ), (101 : ℚ)/10)] = 101/10 := by
    unfold taxSum
    simp only [List.foldl_cons, List.foldl_nil]
    norm_num
  have hg : (decodeVendorData [((0 : ℚ), [("T", (0 : ℚ), (101 : ℚ)/10)])]).grand_total
      = fl (fl (0 + fl 0) + taxSumFloat 0 [("T", 0, 101/10)]) := rfl
  rw [hsub, hsub0, hdict, htx, zero_add, hg] at heq
  obtain ⟨m, e, hme⟩ := fl_dyadic (fl (0 + fl 0) + taxSumFloat 0 [("T", (0 : ℚ), (101 : ℚ)/10)])
  rw [hme] at heq
  exact not_dyadic_101_over_10 m e heq

/-- C2 amended: the cart aggregator satisfies
`grand_total = subtotal +` (sum of the breakdown amounts) exactly, for every
sequence of cart lines and tax rules (all-decimal arithmetic); for a decoded
single-key ledger slice (the shape the encoder writes) the same equation
holds whenever the slice's numbers survive float parsing and accumulation
exactly — the subtotal is a float fixed point, the float-accumulated tax
equals the exact sum of the amounts, and the final addition is exact. -/
theorem C2_grand_total_invariant (cart_items : List CartItem) (taxes : List Tax)
    (s : ℚ) (d : TaxDict)
    (hnd : (d.map (fun e => e.1)).Nodup)
    (h1 : fl s = s)
    (h2 : taxSumFloat 0 d = taxSum d)
    (h3 : fl (s + taxSum d) = s + taxSum d) :
    (get_cart_amounts cart_items taxes).grand_total
      = (get_cart_amounts cart_items taxes).subtotal
        + taxSum (get_cart_amounts cart_items taxes).tax_dict
    ∧ (decodeVendorData [(s, d)]).grand_total
      = (decodeVendorData [(s, d)]).subtotal
        + taxSum (decodeVendorData [(s, d)]).tax_dict := by
  constructor
  · rfl
  · rw [decodeVendorData_single]
    dsimp only
    rw [dictUpdateAll_nil d hnd]
    have hs : fl (0 + fl s) = s := by rw [h1, zero_add, h1]
    rw [hs, h2, h3]

/-- Witness for C2 at a concrete cart, tax table and dyadic-valued ledger
slice. -/
theorem C2_witness :
    (get_cart_amounts [⟨⟨1, 100, 1⟩, 2⟩] [⟨"CGST", 9, true⟩]).grand_total
      = (get_cart_amounts [⟨⟨1, 100, 1⟩, 2⟩] [⟨"CGST", 9, true⟩]).subtotal
        + taxSum (get_cart_amounts [⟨⟨1, 100, 1⟩, 2⟩] [⟨"CGST", 9, true⟩]).tax_dict
    ∧ (decodeVendorData [(50, [("CGST", 9, 9/2), ("SGST", 7, 7/2)])]).grand_total
      = (decodeVendorData [(50, [("CGST", 9, 9/2), ("SGST", 7, 7/2)])]).subtotal
        + taxSum (decodeVendorData [(50, [("CGST", 9, 9/2), ("SGST", 7, 7/2)])]).tax_dict := by
  refine C2_grand_total_invariant _ _ 50 [("CGST", 9, 9/2), ("SGST", 7, 7/2)]
    (by decide) fl_fifty (taxSumFloat_sample.trans taxSum_sample.symm) ?_
  rw [taxSum_sample, show (50 : ℚ) + 8 = 58 by norm_num, fl_fiftyeight]

/-- C3 as stated is false: on an empty cart with one active tax rule the
aggregator returns a breakdown with a zero-amount entry, not an empty one. -/
theorem C3_counterexample :
    get_cart_amounts [] [⟨"CGST", 9, true⟩]
      = { subtotal := 0, tax := 0, grand_total := 0, tax_dict := [("CGST", 9, 0)] }
    ∧ (get_cart_amounts [] [⟨"CGST", 9, true⟩]).tax_dict ≠ [] := by
  have hd : get_cart_amounts [] [⟨"CGST", 9, true⟩]
      = { subtotal := 0, tax := 0, grand_total := 0, tax_dict := [("CGST", 9, 0)] } := by
    simp only [get_cart_amounts, taxDictOf, List.filter_cons, List.filter_nil,
      List.foldl_cons, List.foldl_nil, dictUpdate, taxSum, CartAmounts.mk.injEq]
    norm_num [round2_zero]
    constructor
    · rw [show dictUpdate [] "CGST" 9 0 = [("CGST", 9, 0)] from rfl]
      simp
    · rfl
  refine ⟨hd, ?_⟩
  rw [hd]
  simp

/-- C3 amended: on an empty cart the aggregator returns subtotal 0, tax 0
and grand total 0, and its breakdown carries one zero-amount entry per
active tax rule — it is empty exactly when no tax rule is active. -/
theorem C3_empty_cart (taxes : List Tax) :
    (get_cart_amounts [] taxes).subtotal = 0
    ∧ (get_cart_amounts [] taxes).tax = 0
    ∧ (get_cart_amounts [] taxes).grand_total = 0
    ∧ (∀ e ∈ (get_cart_amounts [] taxes).tax_dict, e.2.2 = 0)
    ∧ ((get_cart_amounts [] taxes).tax_dict = []
        ↔ taxes.filter (fun t => t.is_active) = []) := by
  have hdict : (get_cart_amounts [] taxes).tax_dict
      = taxDictOf (taxes.filter (fun t => t.is_active)) 0 := rfl
  have hzero : ∀ e ∈ (get_cart_amounts [] taxes).tax_dict, e.2.2 = 0 := by
    intro e he
    rw [hdict] at he
    obtain ⟨t, _, he'⟩ := mem_taxDictOf _ 0 e he
    rw [he']
    simp [round2_zero]
  have htax : (get_cart_amounts [] taxes).tax = 0 := by
    have h1 : (get_cart_amounts [] taxes).tax
        = taxSum (get_cart_amounts [] taxes).tax_dict := rfl
    rw [h1, taxSum_eq_sum]
    refine List.sum_eq_zero ?_
    intro x hx
    obtain ⟨e, he, hx'⟩ := List.mem_map.mp hx
    exact hx' ▸ hzero e he
  refine ⟨rfl, htax, ?_, hzero, ?_⟩
  · have h2 : (get_cart_amounts [] taxes).grand_total
        = (get_cart_amounts [] taxes).subtotal + (get_cart_amounts [] taxes).tax := rfl
    have h3 : (get_cart_amounts [] taxes).subtotal = 0 := rfl
    rw [h2, h3, htax, add_zero]
  · rw [hdict]
    exact taxDictOf_eq_nil_iff _ 0

/-- Witness for C3's amended statement at a concrete one-rule tax table. -/
theorem C3_witness :
    (get_cart_amounts [] [⟨"CGST", 9, true⟩]).tax = 0
    ∧ ¬ ((get_cart_amounts [] [⟨"CGST", 9, true⟩]).tax_dict = []) := by
  refine ⟨(C3_empty_cart [⟨"CGST", 9, true⟩]).2.1, ?_⟩
  intro hnil
  have h := ((C3_empty_cart [⟨"CGST", 9, true⟩]).2.2.2.2).mp hnil
  simp [List.filter_cons] at h

/-- C4 as stated is false: querying a vendor id absent from the ledger does
fail, but with the generic `AttributeError` (`None` has no `.items`), not
with a dedicated `VendorNotInOrder` error. -/
theorem C4_counterexample :
    order_total_by_vendor
        ⟨"20220616233810", 55, 5, [(1, [(50, [("CGST", 9, 9/2)])])], "New", true⟩ 2
      = .error .attributeError
    ∧ order_total_by_vendor
        ⟨"20220616233810", 55, 5, [(1, [(50, [("CGST", 9, 9/2)])])], "New", true⟩ 2
      ≠ .error .vendorNotInOrder := by
  refine ⟨rfl, ?_⟩
  intro h
  exact PyErr.noConfusion (Except.error.inj h)

/-- C4 amended: querying a placed order's per-vendor totals for a vendor id
absent from the ledger fails by raising Python's `AttributeError` (the
`dict.get` returns `None` and the loop calls `.items()` on it); no dedicated
`VendorNotInOrder` error exists in the code. -/
theorem C4_missing_vendor (o : Order) (vid : ℕ)
    (h : lookupTD o.total_data vid = none) :
    order_total_by_vendor o vid = .error .attributeError := by
  unfold order_total_by_vendor
  rw [h]

/-- Witness for C4's amended statement at a concrete order and vendor id. -/
theorem C4_witness :
    order_total_by_vendor ⟨"202301010000007", 10, 0, [(3, [(10, [])])], "New", true⟩ 7
      = .error .attributeError :=
  C4_missing_vendor _ 7 (by decide)

/-- C5: the per-vendor totals query is a pure function of the order's
persisted ledger and the vendor id: two orders with the same `total_data`
give identical results for every vendor id, whatever their other fields
(status, totals, order number, flags) — so repeated calls on an unmodified
order are bit-identical and never consult live prices or request state. -/
theorem C5_pure_decode (o₁ o₂ : Order) (vid : ℕ)
    (h : o₁.total_data = o₂.total_data) :
    order_total_by_vendor o₁ vid = order_total_by_vendor o₂ vid := by
  unfold order_total_by_vendor lookupTD
  rw [h]

/-- Witness for C5: two orders differing in every non-ledger field agree. -/
theorem C5_witness :
    order_total_by_vendor
        ⟨"a", 1, 2, [(1, [(50, [("CGST", 9, 9/2)])])], "New", false⟩ 1
      = order_total_by_vendor
        ⟨"b", 99, 0, [(1, [(50, [("CGST", 9, 9/2)])])], "Completed", true⟩ 1 :=
  C5_pure_decode _ _ 1 rfl

/-- C6: for every active tax rule after which no other active rule shares
its type (tax rule types are unique), the aggregator's breakdown entry for
that rule is exactly `(percentage, round(percentage * subtotal / 100, 2))`,
where the rounding is half-even to 2 decimal places — the platform default
(banker's) rounding of Python's `round` on decimals. -/
theorem C6_rule_amount (cart_items : List CartItem) (pre post : List Tax) (t : Tax)
    (ht : t.is_active = true)
    (hpost : ∀ r ∈ post, r.is_active = true → r.tax_type ≠ t.tax_type) :
    taxLookup (get_cart_amounts cart_items (pre ++ t :: post)).tax_dict t.tax_type
      = some (t.tax_percentage,
          round2 (t.tax_percentage
            * (get_cart_amounts cart_items (pre ++ t :: post)).subtotal / 100)) := by
  have hdict : (get_cart_amounts cart_items (pre ++ t :: post)).tax_dict
      = taxDictOf ((pre ++ t :: post).filter (fun x => x.is_active))
          (get_cart_amounts cart_items (pre ++ t :: post)).subtotal := rfl
  rw [hdict, List.filter_append, List.filter_cons]
  rw [if_pos (by rw [ht])]
  refine taxLookup_taxDictOf_last _ _ t _ ?_
  intro r hr
  obtain ⟨hr1, hr2⟩ := List.mem_filter.mp hr
  exact hpost r hr1 hr2

/-- Witness for C6: the spec's concrete scenario — subtotal 100, active
rules CGST 9% and SGST 7% — yields the breakdown entry CGST ↦ (9, 9.00). -/
theorem C6_witness :
    taxLookup (get_cart_amounts [⟨⟨1, 100, 1⟩, 1⟩]
        ([] ++ ⟨"CGST", 9, true⟩ :: [⟨"SGST", 7, true⟩])).tax_dict "CGST"
      = some (9, 9) := by
  rw [C6_rule_amount [⟨⟨1, 100, 1⟩, 1⟩] [] [⟨"SGST", 7, true⟩] ⟨"CGST", 9, true⟩
    rfl (by decide)]
  have hsub : (get_cart_amounts [⟨⟨1, 100, 1⟩, 1⟩]
      ([] ++ ⟨"CGST", 9, true⟩ :: [⟨"SGST", 7, true⟩])).subtotal = 100 := by
    show (0 : ℚ) + 100 * (1 : ℕ) = 100
    norm_num
  rw [hsub]
  norm_num [round2, roundHalfEven]

/-- C7: when two active tax rules share the same type, the aggregator's
result is identical to the one computed from the later rule alone — the
earlier rule's percentage and amount are overwritten and contribute nothing
to the breakdown, the tax or the grand total (last-write-wins). -/
theorem C7_last_write_wins (cart_items : List CartItem) (r₁ r₂ : Tax)
    (h1 : r₁.is_active = true) (h2 : r₂.is_active = true)
    (h : r₁.tax_type = r₂.tax_type) :
    get_cart_amounts cart_items [r₁, r₂] = get_cart_amounts cart_items [r₂] := by
  have hf1 : [r₁, r₂].filter (fun x => x.is_active) = [r₁, r₂] := by
    simp [List.filter_cons, h1, h2]
  have hf2 : [r₂].filter (fun x => x.is_active) = [r₂] := by
    simp [List.filter_cons, h2]
  have hd : ∀ s : ℚ, taxDictOf [r₁, r₂] s = taxDictOf [r₂] s := by
    intro s
    simp [taxDictOf, dictUpdate, h]
  unfold get_cart_amounts
  rw [hf1, hf2]
  simp only [hd]

/-- Witness for C7: two active rules of type GST (9% then 7%) give the same
result as the 7% rule alone. -/
theorem C7_witness :
    get_cart_amounts [⟨⟨1, 100, 1⟩, 1⟩] [⟨"GST", 9, true⟩, ⟨"GST", 7, true⟩]
      = get_cart_amounts [⟨⟨1, 100, 1⟩, 1⟩] [⟨"GST", 7, true⟩] :=
  C7_last_write_wins _ _ _ rfl rfl rfl

/-- C8 as stated is false: the checkout view on an empty cart does not fail
with an `EmptyCart` error — it redirects to the marketplace page (and, as
claimed, creates no order). -/
theorem C8_counterexample :
    checkout [⟨"n", 0, 0, [], "New", false⟩] []
      = (.redirect "marketplace", [⟨"n", 0, 0, [], "New", false⟩])
    ∧ (CheckoutResponse.redirect "marketplace") ≠ CheckoutResponse.errorEmptyCart :=
  ⟨rfl, fun h => CheckoutResponse.noConfusion h⟩

/-- C8 amended: checkout on an empty sequence of cart lines silently
redirects to the marketplace page and leaves the order store unchanged
(creates no order); no `EmptyCart` error is raised. -/
theorem C8_empty_cart_redirect (orders : List Order) :
    checkout orders [] = (.redirect "marketplace", orders) := rfl

/-- C9 as stated is false on the tie-break: two vendors at equal distance
are returned in the underlying row order (here ids [2, 1]), not ordered by
vendor id ascending ([1, 2]). -/
theorem C9_counterexample :
    (home (fun _ _ => 0)
        [⟨2, "b", true, true, some (1, 1)⟩, ⟨1, "a", true, true, some (2, 2)⟩]
        (some (0, 0))).map (fun p => p.1.id) = [2, 1]
    ∧ ¬ ((home (fun _ _ => 0)
        [⟨2, "b", true, true, some (1, 1)⟩, ⟨1, "a", true, true, some (2, 2)⟩]
        (some (0, 0))).map (fun p => p.1.id) = [1, 2]) := by
  have h1000 : ((0 : ℚ) ≤ 1000) := by norm_num
  have heval : (home (fun _ _ => 0)
      [⟨2, "b", true, true, some (1, 1)⟩, ⟨1, "a", true, true, some (2, 2)⟩]
      (some (0, 0))).map (fun p => p.1.id) = [2, 1] := by
    simp [home, sortByKey, insertByKey, distKey, h1000]
  refine ⟨heval, ?_⟩
  rw [heval]
  simp

/-- C9 amended: with an origin present, home-page geo discovery returns
exactly the vendors located within the (fixed, 1000 km) radius, ordered
ascending by distance, each annotated with its distance rounded half-even
to 1 decimal place; rows with equal distance keep the underlying table
order — there is no vendor-id tie-break. -/
theorem C9_geo_discovery (dist : Point → Point → ℚ) (vendors : List Vendor)
    (pnt : Point) :
    (∀ p ∈ home dist vendors (some pnt),
        ∃ l, p.1.location = some l ∧ dist l pnt ≤ 1000
          ∧ p.2 = some (round1 (dist l pnt)))
    ∧ (∀ v ∈ vendors, ∀ l, v.location = some l → dist l pnt ≤ 1000 →
        v ∈ (home dist vendors (some pnt)).map Prod.fst)
    ∧ (home dist vendors (some pnt)).Pairwise
        (fun p q => distKey dist pnt p.1 ≤ distKey dist pnt q.1) := by
  refine ⟨?_, ?_, ?_⟩
  · intro p hp
    rw [home] at hp
    obtain ⟨v, hv, hann⟩ := List.mem_map.mp hp
    rw [mem_sortByKey] at hv
    obtain ⟨hv1, hv2⟩ := List.mem_filter.mp hv
    cases hl : v.location with
    | none => rw [hl] at hv2; simp at hv2
    | some l =>
        rw [hl] at hv2
        have hle : dist l pnt ≤ 1000 := by simpa using hv2
        subst hann
        refine ⟨l, hl, hle, ?_⟩
        rw [hl]
  · intro v hv l hl hle
    exact (mem_home_within dist vendors pnt v).mpr ⟨hv, l, hl, hle⟩
  · rw [home]
    refine List.Pairwise.map _ ?_ (pairwise_sortByKey (distKey dist pnt) _)
    intro a b hab
    exact hab

/-- Witness for C9's amended statement: a vendor 2 km away (well inside the
1000 km radius) is in the discovered list. -/
theorem C9_witness :
    (⟨1, "a", true, true, some (2, 0)⟩ : Vendor)
      ∈ (home (fun l _ => l.1)
          [⟨1, "a", true, true, some (2, 0)⟩, ⟨3, "c", true, true, some (2000, 0)⟩]
          (some (0, 0))).map Prod.fst :=
  (C9_geo_discovery (fun l _ => l.1) _ (0, 0)).2.1 _ (by simp) (2, 0) rfl (by norm_num)

/-- C10: with an origin present, the home view drops the approved-and-active
filter entirely — membership in the result depends only on having a location
within 1000 km of the origin (so unapproved or inactive vendors are
included) — whereas with no origin it returns exactly the first 8 approved
vendors of active users. -/
theorem C10_home_no_approval_filter (dist : Point → Point → ℚ)
    (vendors : List Vendor) (pnt : Point) :
    (∀ v : Vendor, v ∈ (home dist vendors (some pnt)).map Prod.fst ↔
        v ∈ vendors ∧ ∃ l, v.location = some l ∧ dist l pnt ≤ 1000)
    ∧ (home dist vendors none).map Prod.fst
        = (vendors.filter (fun v => v.is_approved && v.user_is_active)).take 8
    ∧ (∀ v ∈ (home dist vendors none).map Prod.fst,
        v.is_approved = true ∧ v.user_is_active = true) := by
  have h2 : (home dist vendors none).map Prod.fst
      = (vendors.filter (fun v => v.is_approved && v.user_is_active)).take 8 := by
    rw [home]
    exact map_fst_pair _ _
  refine ⟨fun v => mem_home_within dist vendors pnt v, h2, ?_⟩
  intro v hv
  rw [h2] at hv
  have hv' := List.mem_of_mem_take hv
  have hcond := (List.mem_filter.mp hv').2
  simpa [Bool.and_eq_true] using hcond

/-- Witness for C10: an unapproved vendor of an inactive user, located
within the radius, is returned when an origin is present. -/
theorem C10_witness :
    (⟨4, "x", false, false, some (1, 1)⟩ : Vendor)
      ∈ (home (fun _ _ => 0) [⟨4, "x", false, false, some (1, 1)⟩]
          (some (0, 0))).map Prod.fst :=
  ((C10_home_no_approval_filter (fun _ _ => 0) _ (0, 0)).1 _).mpr
    ⟨by simp, (1, 1), rfl, by norm_num⟩

end Foodtruck
